import Mathlib

/-
Verification of the capability-based filesystem access-control layer exercised
by openat.cc (Capsicum "strict relative" lookup rules).  The repository's
source holds only the test scenarios (OpenatTest, Openat.Relative); the
resolver and dispatcher themselves live in the host kernel, so they are
modelled here from the specification, with every behavioural choice pinned to
the assertions and comments of src/openat.cc.
-/

set_option autoImplicit false

namespace Capsicum

/-! ## Paths -/

/-- Split a character list at every slash character, accumulating the
current component in reverse. -/
def splitPathAux : List Char → List Char → List (List Char)
  | [], acc => [acc.reverse]
  | c :: rest, acc =>
      if c = '/' then acc.reverse :: splitPathAux rest []
      else splitPathAux rest (c :: acc)

/-- Modelled from the spec: a Path is an ordered sequence of components plus a
leading-slash flag; empty components (duplicate slashes) are dropped. -/
def pathComponents (p : String) : List String :=
  ((splitPathAux p.data []).filter (fun cs => !cs.isEmpty)).map String.mk

/-- Modelled from the spec: the leading-slash (absolute) flag of a path. -/
def isAbsolute (p : String) : Bool :=
  match p.data with
  | [] => false
  | c :: _ => c == '/'

/-- True when some component of the path is the parent-directory marker. -/
def hasDotDot (comps : List String) : Bool :=
  comps.any (fun c => c == "..")

/-! ## Filesystem nodes -/

/-- Modelled from the spec: the filesystem namespace the layer mediates access
to (external collaborator, section 6): files, directories and symlinks. -/
inductive Node where
  | file (contents : String)
  | dir (entries : List (String × Node))
  | symlink (target : String)

/-- Look a name up among directory entries (first match). -/
def lookupEntry : List (String × Node) → String → Option Node
  | [], _ => none
  | (name, n) :: rest, c => if name = c then some n else lookupEntry rest c

/-- Fetch the node denoted by a component list walked down from a root,
following no symlinks (used to locate descriptor base directories). -/
def nodeAt : Node → List String → Option Node
  | n, [] => some n
  | Node.dir entries, c :: rest =>
      match lookupEntry entries c with
      | some n => nodeAt n rest
      | none => none
  | _, _ :: _ => none

/-- Membership of a node in the subtree rooted at another node. -/
inductive InTree : Node → Node → Prop
  | refl (n : Node) : InTree n n
  | child {m n : Node} {name : String} {entries : List (String × Node)} :
      (name, n) ∈ entries → InTree m n → InTree m (Node.dir entries)

/-! ## Rights, descriptors, flags, errors -/

/-- Modelled from the spec: the Rights Set bits (CAP_READ, CAP_WRITE,
CAP_SEEK, CAP_LOOKUP, CAP_FCHDIR, CAP_FCNTL, CAP_IOCTL in the source). -/
structure CapRights where
  read : Bool := false
  write : Bool := false
  seek : Bool := false
  lookup : Bool := false
  fchdir : Bool := false
  fcntl : Bool := false
  ioctl : Bool := false
  deriving DecidableEq, Repr

/-- a is narrower than or equal to b on every right bit. -/
def CapRights.subset (a b : CapRights) : Bool :=
  (!a.read || b.read) && (!a.write || b.write) && (!a.seek || b.seek) &&
  (!a.lookup || b.lookup) && (!a.fchdir || b.fchdir) &&
  (!a.fcntl || b.fcntl) && (!a.ioctl || b.ioctl)

/-- The full (unrestricted) Rights Set a plain descriptor carries. -/
def full_rights : CapRights :=
  { read := true, write := true, seek := true, lookup := true,
    fchdir := true, fcntl := true, ioctl := true }

/-- Modelled from the spec: a descriptor — the directory it denotes (as a
component path from the global root), the is-capability flag, its Rights Set
and the optional fcntl/ioctl sub-enumerations (none meaning "all"). -/
structure Descriptor where
  path : List String
  is_cap : Bool
  rights : CapRights
  fcntls : Option (List Nat)
  ioctls : Option (List Nat)
  deriving DecidableEq, Repr

/-- The outcome of a successful open: the node reached plus the capability
metadata of the freshly created descriptor. -/
structure OpenResult where
  node : Node
  is_cap : Bool
  rights : CapRights
  fcntls : Option (List Nat)
  ioctls : Option (List Nat)

/-- Modelled from the spec: get_rights returns a descriptor's Rights Set. -/
def get_rights (r : OpenResult) : CapRights := r.rights

/-- Open flags relevant to the lookup dispatcher: O_NOFOLLOW and O_BENEATH. -/
structure OpenFlags where
  nofollow : Bool := false
  beneath : Bool := false
  deriving DecidableEq, Repr

/-- Modelled from the spec: the classified lookup failures (section 7), with
sandboxViolation playing ECAPMODE, traversalBeyondRoot the strict-relative
rejection, notCapable ENOTCAPABLE and symlinkLoop ELOOP. -/
inductive LookupError where
  | notCapable
  | rightsEscalation
  | traversalBeyondRoot
  | symlinkLoop
  | sandboxViolation
  | hostLookupFailure
  deriving DecidableEq, Repr

/-- Modelled from the spec: process-wide state — the filesystem root, the
one-way Sandbox Mode flag and the current working directory (the ambient
reference used by AT_FDCWD lookups). -/
structure Sys where
  root : Node
  sandbox : Bool
  cwd : List String

/-- The base reference of a lookup: the ambient working directory (AT_FDCWD)
or an explicit descriptor. -/
inductive Base where
  | at_fdcwd
  | fd (d : Descriptor)

/-! ## Strict-Relative Resolver (modelled from the spec, section 4.4) -/

/-- One fuel level of the strict walk: walks components left to right, a dot
component being a no-op; meeting a symlink, a final one under no-follow fails
with symlinkLoop, and otherwise the expansion — which costs one unit of the
symlink budget — is delegated to `expand` with the symlink's containing
directory, its target text and the remaining components. -/
def walkAux (expand : Node → String → List String → Bool → Except LookupError Node) :
    Node → List String → Bool → Except LookupError Node
  | cur, [], _ => Except.ok cur
  | cur, c :: rest, nofollow =>
      if c = "." then walkAux expand cur rest nofollow
      else
        match cur with
        | Node.dir entries =>
            match lookupEntry entries c with
            | none => Except.error LookupError.hostLookupFailure
            | some (Node.symlink t) =>
                if nofollow && rest.isEmpty then
                  Except.error LookupError.symlinkLoop
                else expand cur t rest nofollow
            | some n => walkAux expand n rest nofollow
        | _ => Except.error LookupError.hostLookupFailure

/-- Modelled from the spec: the component walk of the Strict-Relative
Resolver.  Expanding a symlink first polices its target text — an absolute
target or one containing a dot-dot component fails with traversalBeyondRoot —
and then continues relative to the symlink's own containing directory; the
budget `fuel` bounds symlink-expansion depth, exhaustion failing with
symlinkLoop. -/
def strict_walk : Nat → Node → List String → Bool → Except LookupError Node
  | 0 => walkAux (fun _ _ _ _ => Except.error LookupError.symlinkLoop)
  | Nat.succ f => walkAux (fun cur t rest nofollow =>
      if isAbsolute t || hasDotDot (pathComponents t) then
        Except.error LookupError.traversalBeyondRoot
      else strict_walk f cur (pathComponents t ++ rest) nofollow)

/-- The symlink-expansion budget (MAXSYMLINKS in the host kernel). -/
def maxSymlinkDepth : Nat := 32

/-- Modelled from the spec: the Strict-Relative Resolver entry.  Steps 1 and 2
reject absolute paths and any dot-dot component before the base directory is
even consulted; then the walk runs from the containment root and the result
is wrapped by `wrap` (capability inheritance is the dispatcher's concern). -/
def open_strict (sys : Sys) (bpath : List String) (path : String)
    (flags : OpenFlags) (wrap : Node → OpenResult) :
    Except LookupError OpenResult :=
  if isAbsolute path || hasDotDot (pathComponents path) then
    Except.error LookupError.traversalBeyondRoot
  else
    match nodeAt sys.root bpath with
    | none => Except.error LookupError.hostLookupFailure
    | some b =>
        (strict_walk maxSymlinkDepth b (pathComponents path) flags.nofollow).map wrap

/-! ## Ordinary (unrestricted) resolution (external collaborator, section 6) -/

/-- One fuel level of ordinary resolution.  The current position is tracked
as a component path from the global root so a dot-dot component can ascend;
symlink expansion is delegated to `expand` with the position, the target text
and the remaining components. -/
def ordinaryAux (root : Node)
    (expand : List String → String → List String → Bool → Except LookupError Node) :
    List String → List String → Bool → Except LookupError Node
  | cur, [], _ =>
      match nodeAt root cur with
      | some n => Except.ok n
      | none => Except.error LookupError.hostLookupFailure
  | cur, c :: rest, nofollow =>
      if c = "." then ordinaryAux root expand cur rest nofollow
      else if c = ".." then ordinaryAux root expand cur.dropLast rest nofollow
      else
        match nodeAt root (cur ++ [c]) with
        | none => Except.error LookupError.hostLookupFailure
        | some (Node.symlink t) =>
            if nofollow && rest.isEmpty then
              Except.error LookupError.symlinkLoop
            else expand cur t rest nofollow
        | some _ => ordinaryAux root expand (cur ++ [c]) rest nofollow

/-- Modelled from the spec: ordinary unrestricted resolution (the external
collaborator of section 6): dot-dot ascends, an absolute symlink target
restarts at the global root, a relative one continues from the symlink's
containing directory, and the budget bounds symlink-expansion depth. -/
def ordinary_walk (root : Node) : Nat → List String → List String → Bool →
    Except LookupError Node
  | 0 => ordinaryAux root (fun _ _ _ _ => Except.error LookupError.symlinkLoop)
  | Nat.succ f => ordinaryAux root (fun cur t rest nofollow =>
      if isAbsolute t then
        ordinary_walk root f [] (pathComponents t ++ rest) nofollow
      else
        ordinary_walk root f cur (pathComponents t ++ rest) nofollow)

/-- A plain (non-capability) open result: full rights, no sub-limits. -/
def plain_result (n : Node) : OpenResult :=
  { node := n, is_cap := false, rights := full_rights,
    fcntls := none, ioctls := none }

/-- The capability open result inherited verbatim from the parent descriptor
(spec 4.2: capabilities beget capabilities, rights not re-derived). -/
def cap_result (d : Descriptor) (n : Node) : OpenResult :=
  { node := n, is_cap := true, rights := d.rights,
    fcntls := d.fcntls, ioctls := d.ioctls }

/-- Ordinary resolution of a path from a start directory; an absolute path
starts at the global root instead. -/
def ordinary_open (sys : Sys) (start : List String) (path : String)
    (flags : OpenFlags) : Except LookupError OpenResult :=
  (ordinary_walk sys.root maxSymlinkDepth
      (if isAbsolute path then [] else start)
      (pathComponents path) flags.nofollow).map plain_result

/-! ## Lookup Dispatcher (modelled from the spec, section 4.5, with the
behavioural choices pinned by src/openat.cc) -/

/-- Modelled from the spec: the Lookup Dispatcher / open_relative.  Routing is
strict when the base is a capability, sandbox mode is active, or O_BENEATH was
passed.  Behaviour pinned to src/openat.cc: an ambient (AT_FDCWD) base in
sandbox mode fails with sandboxViolation before anything else (lines 122,
276-278); a leading-slash path outside sandbox mode without O_BENEATH ignores
the provided base — capability or not — and is opened directly (lines 79-82,
267-268); the Lookup right is required on a capability base only in sandbox
mode (comment line 75, assertion line 119); a capability base wraps the
result with its own rights verbatim (lines 87-107). -/
def open_relative (sys : Sys) (base : Base) (path : String)
    (flags : OpenFlags) : Except LookupError OpenResult :=
  match base with
  | Base.at_fdcwd =>
      if sys.sandbox then Except.error LookupError.sandboxViolation
      else if flags.beneath then open_strict sys sys.cwd path flags plain_result
      else ordinary_open sys sys.cwd path flags
  | Base.fd d =>
      if d.is_cap || sys.sandbox || flags.beneath then
        if isAbsolute path && !sys.sandbox && !flags.beneath then
          ordinary_open sys d.path path flags
        else if d.is_cap && sys.sandbox && !d.rights.lookup then
          Except.error LookupError.notCapable
        else
          open_strict sys d.path path flags
            (if d.is_cap then cap_result d else plain_result)
      else ordinary_open sys d.path path flags

/-! ## Rights limiting and the descriptor table -/

/-- Modelled from the spec: cap_rights_limit / narrow — replacing a
descriptor's Rights Set by a narrower one turns it into a capability; a
widening request fails with rightsEscalation. -/
def cap_rights_limit (d : Descriptor) (r : CapRights) :
    Except LookupError Descriptor :=
  if CapRights.subset r d.rights then
    Except.ok { d with is_cap := true, rights := r }
  else Except.error LookupError.rightsEscalation

/-- The process's descriptor table, mapping fd numbers to descriptors. -/
def FdTable : Type := List (Nat × Descriptor)

/-- First-match lookup of an fd number in the table. -/
def lookupFd : FdTable → Nat → Option Descriptor
  | [], _ => none
  | (n, d) :: rest, fd => if n = fd then some d else lookupFd rest fd

/-- dup(2): allocate a fresh fd sharing the state of an existing one. -/
def dupFd (t : FdTable) (fd newFd : Nat) : FdTable :=
  match lookupFd t fd with
  | some d => (newFd, d) :: t
  | none => t

/-- cap_rights_limit applied through the descriptor table: only the named
fd's entry is replaced. -/
def fd_rights_limit : FdTable → Nat → CapRights → Except LookupError FdTable
  | [], _, _ => Except.error LookupError.hostLookupFailure
  | (n, d) :: rest, fd, r =>
      if n = fd then (cap_rights_limit d r).map (fun d2 => (n, d2) :: rest)
      else (fd_rights_limit rest fd r).map (fun t2 => (n, d) :: t2)

/-! ## Fixtures from src/openat.cc -/

/-- CAP_FCNTL_GETFL, the one fcntl subright kept at line 59. -/
def CAP_FCNTL_GETFL : Nat := 8

/-- FIONREAD, the one ioctl request kept at lines 63-64. -/
def FIONREAD : Nat := 0x541b

/-- Contents of /tmp/cap_topdir/topfile (line 173). -/
def topfile : Node := Node.file "Top-level file"

/-- Contents of /tmp/cap_topdir/subdir/bottomfile (line 174). -/
def bottomfile : Node := Node.file "File in subdirectory"

/-- Entries of /tmp/cap_topdir/subdir (lines 169, 174, 183). -/
def subdir_entries : List (String × Node) :=
  [("bottomfile", bottomfile), ("symlink.up", Node.symlink "../topfile")]

/-- Entries of /tmp/cap_topdir (lines 164-183 of the fixture). -/
def cap_topdir_entries : List (String × Node) :=
  [("topfile", topfile),
   ("subdir", Node.dir subdir_entries),
   ("symlink.samedir", Node.symlink "topfile"),
   ("symlink.down", Node.symlink "subdir/bottomfile"),
   ("symlink.absolute_in", Node.symlink "/tmp/cap_topdir/topfile"),
   ("symlink.absolute_out", Node.symlink "/etc/passwd"),
   ("symlink.relative_in", Node.symlink "../../tmp/cap_topdir/topfile"),
   ("symlink.relative_out", Node.symlink "../../etc/passwd")]

/-- The /tmp/cap_topdir directory node. -/
def cap_topdir : Node := Node.dir cap_topdir_entries

/-- The node opened as /etc/passwd by the tests. -/
def passwdNode : Node := Node.file "root:x:0:0:root"

/-- The global filesystem root holding /etc and /tmp/cap_topdir. -/
def fsRoot : Node :=
  Node.dir [("etc", Node.dir [("passwd", passwdNode)]),
            ("tmp", Node.dir [("cap_topdir", cap_topdir)])]

/-- The system before cap_enter, with the working directory moved to
/tmp/cap_topdir by the fixture (line 193). -/
def sys_plain : Sys := { root := fsRoot, sandbox := false, cwd := ["tmp", "cap_topdir"] }

/-- The system after cap_enter (capability mode). -/
def sys_capmode : Sys := { root := fsRoot, sandbox := true, cwd := ["tmp", "cap_topdir"] }

/-- r_base of Openat.Relative (line 42): READ, WRITE, SEEK, LOOKUP, FCNTL, IOCTL. -/
def r_base : CapRights :=
  { read := true, write := true, seek := true, lookup := true,
    fcntl := true, ioctl := true }

/-- r_ro of Openat.Relative (line 44): READ only. -/
def r_ro : CapRights := { read := true }

/-- r_rl of Openat.Relative (line 46): READ and LOOKUP. -/
def r_rl : CapRights := { read := true, lookup := true }

/-- r_rl of OpenatTest.WithCapability (line 263): READ, LOOKUP, FCHDIR. -/
def r_rlf : CapRights := { read := true, lookup := true, fchdir := true }

/-- The plain /etc directory fd (line 38). -/
def etc_fd : Descriptor :=
  { path := ["etc"], is_cap := false, rights := full_rights,
    fcntls := none, ioctls := none }

/-- etc_cap (lines 48-50): capability with READ only — no LOOKUP. -/
def etc_cap : Descriptor :=
  { path := ["etc"], is_cap := true, rights := r_ro,
    fcntls := none, ioctls := none }

/-- etc_cap_ro (lines 51-53): capability with READ and LOOKUP. -/
def etc_cap_ro : Descriptor :=
  { path := ["etc"], is_cap := true, rights := r_rl,
    fcntls := none, ioctls := none }

/-- etc_cap_base (lines 54-64): capability with r_base plus limited fcntl and
ioctl sub-enumerations. -/
def etc_cap_base : Descriptor :=
  { path := ["etc"], is_cap := true, rights := r_base,
    fcntls := some [CAP_FCNTL_GETFL], ioctls := some [FIONREAD] }

/-- dir_fd_ of OpenatTest before cap_rights_limit (line 186). -/
def dir_fd : Descriptor :=
  { path := ["tmp", "cap_topdir"], is_cap := false, rights := full_rights,
    fcntls := none, ioctls := none }

/-- sub_fd_ of OpenatTest before cap_rights_limit (line 188). -/
def sub_fd : Descriptor :=
  { path := ["tmp", "cap_topdir", "subdir"], is_cap := false,
    rights := full_rights, fcntls := none, ioctls := none }

/-- dir_fd_ after cap_rights_limit(r_rl) in WithCapability (line 264). -/
def dir_fd_cap : Descriptor :=
  { path := ["tmp", "cap_topdir"], is_cap := true, rights := r_rlf,
    fcntls := none, ioctls := none }

/-- sub_fd_ after cap_rights_limit(r_rl) in WithCapability (line 265). -/
def sub_fd_cap : Descriptor :=
  { path := ["tmp", "cap_topdir", "subdir"], is_cap := true, rights := r_rlf,
    fcntls := none, ioctls := none }

/-! ## General lemmas -/

theorem except_map_ok {α β : Type} {f : α → β} {x : Except LookupError α} {r : β}
    (h : x.map f = Except.ok r) : ∃ a, x = Except.ok a ∧ r = f a := by
  cases x with
  | ok a =>
      refine ⟨a, rfl, ?_⟩
      simpa [Except.map] using h.symm
  | error e => simp [Except.map] at h

theorem lookupEntry_mem {entries : List (String × Node)} {c : String} {n : Node}
    (h : lookupEntry entries c = some n) : (c, n) ∈ entries := by
  induction entries with
  | nil => simp [lookupEntry] at h
  | cons e rest ih =>
      obtain ⟨name, m⟩ := e
      by_cases hc : name = c
      · subst hc
        simp [lookupEntry] at h
        subst h
        exact List.mem_cons_self _ _
      · simp only [lookupEntry, if_neg hc] at h
        exact List.mem_cons_of_mem _ (ih h)

theorem walkAux_inTree
    {expand : Node → String → List String → Bool → Except LookupError Node}
    (hexp : ∀ cur t rest nf n, expand cur t rest nf = Except.ok n → InTree n cur) :
    ∀ {comps : List String} {cur : Node} {nf : Bool} {n : Node},
      walkAux expand cur comps nf = Except.ok n → InTree n cur := by
  intro comps
  induction comps with
  | nil =>
      intro cur nf n h
      simp only [walkAux, Except.ok.injEq] at h
      exact h ▸ InTree.refl cur
  | cons c rest ih =>
      intro cur nf n h
      by_cases hc : c = "."
      · simp only [walkAux, if_pos hc] at h
        exact ih h
      · cases cur with
        | file s => simp [walkAux, hc] at h
        | symlink t => simp [walkAux, hc] at h
        | dir entries =>
            simp only [walkAux, if_neg hc] at h
            cases he : lookupEntry entries c with
            | none => simp [he] at h
            | some m =>
                cases m with
                | file s =>
                    simp only [he] at h
                    exact InTree.child (lookupEntry_mem he) (ih h)
                | dir es =>
                    simp only [he] at h
                    exact InTree.child (lookupEntry_mem he) (ih h)
                | symlink t =>
                    simp only [he] at h
                    by_cases hnf : (nf && rest.isEmpty) = true
                    · rw [if_pos hnf] at h
                      exact Except.noConfusion h
                    · rw [if_neg hnf] at h
                      exact hexp _ _ _ _ _ h

theorem strict_walk_inTree :
    ∀ (fuel : Nat) {cur : Node} {comps : List String} {nf : Bool} {n : Node},
      strict_walk fuel cur comps nf = Except.ok n → InTree n cur := by
  intro fuel
  induction fuel with
  | zero =>
      intro cur comps nf n h
      simp only [strict_walk] at h
      refine walkAux_inTree ?_ h
      intro _ _ _ _ _ h0
      exact Except.noConfusion h0
  | succ f ih =>
      intro cur comps nf n h
      simp only [strict_walk] at h
      refine walkAux_inTree ?_ h
      intro cur2 t rest nf2 n2 h2
      by_cases hb : (isAbsolute t || hasDotDot (pathComponents t)) = true
      · rw [if_pos hb] at h2
        exact Except.noConfusion h2
      · rw [if_neg hb] at h2
        exact ih h2

theorem strict_walk_dot (fuel : Nat) (b : Node) (nf : Bool) :
    strict_walk fuel b ["."] nf = Except.ok b := by
  cases fuel with
  | zero => simp [strict_walk, walkAux]
  | succ f => simp [strict_walk, walkAux]

theorem strict_walk_final_symlink (fuel : Nat) (entries : List (String × Node))
    (c t : String) (hcdot : c ≠ ".")
    (he : lookupEntry entries c = some (Node.symlink t)) :
    strict_walk fuel (Node.dir entries) [c] true =
      Except.error LookupError.symlinkLoop := by
  cases fuel with
  | zero => simp [strict_walk, walkAux, hcdot, he]
  | succ f => simp [strict_walk, walkAux, hcdot, he]

/-! ## Dispatcher lemmas -/

theorem open_relative_fd_strict (sys : Sys) (d : Descriptor) (path : String)
    (flags : OpenFlags)
    (h3 : (d.is_cap || sys.sandbox || flags.beneath) = true)
    (hnb : (isAbsolute path && !sys.sandbox && !flags.beneath) = false)
    (h4 : d.is_cap = true → sys.sandbox = true → d.rights.lookup = true) :
    open_relative sys (Base.fd d) path flags =
      open_strict sys d.path path flags
        (if d.is_cap then cap_result d else plain_result) := by
  cases hc : d.is_cap <;> cases hs : sys.sandbox <;> cases hb : flags.beneath <;>
    simp_all [open_relative]

theorem open_relative_fd_notCapable (sys : Sys) (d : Descriptor) (path : String)
    (flags : OpenFlags) (hc : d.is_cap = true) (hs : sys.sandbox = true)
    (hl : d.rights.lookup = false) :
    open_relative sys (Base.fd d) path flags =
      Except.error LookupError.notCapable := by
  simp [open_relative, hc, hs, hl]

theorem open_relative_ambient_beneath (sys : Sys) (path : String)
    (flags : OpenFlags) (hs : sys.sandbox = false) (hb : flags.beneath = true) :
    open_relative sys Base.at_fdcwd path flags =
      open_strict sys sys.cwd path flags plain_result := by
  simp [open_relative, hs, hb]

theorem open_strict_dotdot (sys : Sys) (bpath : List String) (path : String)
    (flags : OpenFlags) (w : Node → OpenResult)
    (h : (isAbsolute path || hasDotDot (pathComponents path)) = true) :
    open_strict sys bpath path flags w =
      Except.error LookupError.traversalBeyondRoot := by
  simp [open_strict, h]

theorem open_strict_resolve (sys : Sys) (bpath : List String) (path : String)
    (flags : OpenFlags) (w : Node → OpenResult) (b : Node)
    (habs : isAbsolute path = false)
    (hdd : hasDotDot (pathComponents path) = false)
    (hb : nodeAt sys.root bpath = some b) :
    open_strict sys bpath path flags w =
      (strict_walk maxSymlinkDepth b (pathComponents path) flags.nofollow).map w := by
  simp [open_strict, habs, hdd, hb]

theorem ordinary_open_absolute (sys : Sys) (start : List String) (path : String)
    (flags : OpenFlags) (habs : isAbsolute path = true) :
    ordinary_open sys start path flags = ordinary_open sys [] path flags := by
  simp [ordinary_open, habs]

theorem open_strict_map_node (sys : Sys) (bpath : List String) (path : String)
    (flags : OpenFlags) (w : Node → OpenResult) (hw : ∀ n, (w n).node = n) :
    (open_strict sys bpath path flags w).map (fun r => r.node) =
      (if isAbsolute path || hasDotDot (pathComponents path) then
        Except.error LookupError.traversalBeyondRoot
      else
        match nodeAt sys.root bpath with
        | none => Except.error LookupError.hostLookupFailure
        | some b =>
            strict_walk maxSymlinkDepth b (pathComponents path) flags.nofollow) := by
  by_cases hsp : (isAbsolute path || hasDotDot (pathComponents path)) = true
  · simp [open_strict, hsp, Except.map]
  · rw [Bool.not_eq_true] at hsp
    cases hb : nodeAt sys.root bpath with
    | none => simp [open_strict, hsp, hb, Except.map]
    | some b =>
        simp only [open_strict, hsp, hb, Bool.false_eq_true, if_false]
        cases hw2 : strict_walk maxSymlinkDepth b (pathComponents path)
            flags.nofollow with
        | ok n => simp [Except.map, hw]
        | error e => simp [Except.map]

/-! ## Descriptor-table lemmas -/

theorem lookupFd_dupFd_ne (t : FdTable) (fd newFd : Nat) (h : newFd ≠ fd) :
    lookupFd (dupFd t fd newFd) fd = lookupFd t fd := by
  cases hl : lookupFd t fd with
  | none => simp [dupFd, hl]
  | some d => simp [dupFd, hl, lookupFd, h]

theorem fd_rights_limit_frame :
    ∀ (t : FdTable) (m : Nat) (r : CapRights) (t2 : FdTable) (fd : Nat),
      fd_rights_limit t m r = Except.ok t2 → fd ≠ m →
      lookupFd t2 fd = lookupFd t fd := by
  intro t
  induction t with
  | nil =>
      intro m r t2 fd h hne
      simp [fd_rights_limit] at h
  | cons e rest ih =>
      intro m r t2 fd h hne
      obtain ⟨n, d⟩ := e
      by_cases hn : n = m
      · subst hn
        simp only [fd_rights_limit, if_pos rfl] at h
        obtain ⟨d2, _, ht2⟩ := except_map_ok h
        subst ht2
        have hnf : n ≠ fd := fun hh => hne (hh ▸ rfl)
        simp [lookupFd, hnf]
      · simp only [fd_rights_limit, if_neg hn] at h
        obtain ⟨t2b, hrec, ht2⟩ := except_map_ok h
        subst ht2
        by_cases hf : n = fd
        · simp [lookupFd, hf]
        · simp [lookupFd, hf, ih _ _ _ _ hrec hne]

/-! ## Claims -/

/-- C1: for every relative path containing a dot-dot component, a lookup
routed to the Strict-Relative Resolver — via a capability base, sandbox mode
or the O_BENEATH flag (when it can reach the resolver, i.e. the Lookup-right
check on a sandboxed capability base passes) — fails with
traversalBeyondRoot, even when the fully-resolved target lies within the
containment root. -/
theorem claim1_dotdot_traversal (sys : Sys) (path : String) (flags : OpenFlags)
    (h1 : isAbsolute path = false)
    (h2 : hasDotDot (pathComponents path) = true) :
    (∀ d : Descriptor, (d.is_cap || sys.sandbox || flags.beneath) = true →
      (d.is_cap = true → sys.sandbox = true → d.rights.lookup = true) →
      open_relative sys (Base.fd d) path flags =
        Except.error LookupError.traversalBeyondRoot) ∧
    (sys.sandbox = false → flags.beneath = true →
      open_relative sys Base.at_fdcwd path flags =
        Except.error LookupError.traversalBeyondRoot) := by
  constructor
  · intro d h3 h4
    rw [open_relative_fd_strict sys d path flags h3 (by simp [h1]) h4]
    exact open_strict_dotdot _ _ _ _ _ (by simp [h2])
  · intro hs hb
    rw [open_relative_ambient_beneath sys path flags hs hb]
    exact open_strict_dotdot _ _ _ _ _ (by simp [h2])

/-- C1 witness: "subdir/../topfile" is rejected through the capability base
dir_fd_cap even though its fully-resolved target, topfile, lies within the
root (as ordinary resolution of the same path shows). -/
theorem claim1_witness :
    open_relative sys_plain (Base.fd dir_fd_cap) "subdir/../topfile" {} =
      Except.error LookupError.traversalBeyondRoot ∧
    ordinary_open sys_plain ["tmp", "cap_topdir"] "subdir/../topfile" {} =
      Except.ok (plain_result topfile) := by
  refine ⟨?_, rfl⟩
  exact (claim1_dotdot_traversal sys_plain "subdir/../topfile" {} rfl rfl).1
    dir_fd_cap rfl (fun _ _ => rfl)

/-- C2 counterexample: the claim says every absolute path through a
capability base fails with traversalBeyondRoot, but outside sandbox mode the
base — capability or not — is ignored on a leading-slash path and the open
succeeds (src/openat.cc lines 79-82 and 267-268). -/
theorem claim2_counterexample :
    etc_cap_ro.is_cap = true ∧ sys_plain.sandbox = false ∧
    isAbsolute "/etc/passwd" = true ∧
    open_relative sys_plain (Base.fd etc_cap_ro) "/etc/passwd" {} =
      Except.ok (plain_result passwdNode) := ⟨rfl, rfl, rfl, rfl⟩

/-- C2 amended: for every absolute path, open_relative through an explicit
descriptor base fails with traversalBeyondRoot when sandbox mode is active or
O_BENEATH is set; outside sandbox mode without O_BENEATH, the base descriptor
— capability or not — is ignored and the absolute path is opened directly
from the global root. -/
theorem claim2_absolute_policy (sys : Sys) (path : String) (flags : OpenFlags)
    (habs : isAbsolute path = true) :
    (∀ d : Descriptor, (sys.sandbox || flags.beneath) = true →
      (d.is_cap = true → sys.sandbox = true → d.rights.lookup = true) →
      open_relative sys (Base.fd d) path flags =
        Except.error LookupError.traversalBeyondRoot) ∧
    (sys.sandbox = false → flags.beneath = false →
      ∀ b : Base, open_relative sys b path flags =
        ordinary_open sys [] path flags) := by
  constructor
  · intro d h3 h4
    rw [open_relative_fd_strict sys d path flags
        (by simp only [Bool.or_eq_true] at h3 ⊢; tauto)
        (by cases hs : sys.sandbox <;> cases hb : flags.beneath <;> simp_all) h4]
    exact open_strict_dotdot _ _ _ _ _ (by simp [habs])
  · intro hs hb b
    cases b with
    | at_fdcwd =>
        simp [open_relative, hs, hb,
          ordinary_open_absolute sys sys.cwd path flags habs]
    | fd d =>
        cases hc : d.is_cap <;>
          simp [open_relative, hs, hb, hc, habs,
            ordinary_open_absolute sys d.path path flags habs]

/-- C2 witness: in sandbox mode an absolute path through a capability base
fails with traversalBeyondRoot; outside sandbox mode it is opened directly,
ignoring the base. -/
theorem claim2_witness :
    open_relative sys_capmode (Base.fd etc_cap_ro) "/etc/passwd" {} =
      Except.error LookupError.traversalBeyondRoot ∧
    open_relative sys_plain (Base.fd etc_cap_base) "/etc/passwd" {} =
      ordinary_open sys_plain [] "/etc/passwd" {} := by
  constructor
  · exact (claim2_absolute_policy sys_capmode "/etc/passwd" {} rfl).1
      etc_cap_ro rfl (fun _ _ => rfl)
  · exact (claim2_absolute_policy sys_plain "/etc/passwd" {} rfl).2
      rfl rfl (Base.fd etc_cap_base)

/-- C3: during strict-relative resolution a symlink whose target text is
absolute or contains a dot-dot component fails with traversalBeyondRoot
regardless of where the target would resolve (first conjunct, and the
absolute_in / relative_in fixtures, whose targets denote topfile back inside
the root); any successful strict walk stays within the containment root
(second conjunct); the fixture symlinks with purely relative, dot-dot-free
targets resolve successfully to nodes inside the root (third conjunct), and
the escaping ones all fail (fourth conjunct). -/
theorem claim3_symlink_policing :
    (∀ (entries : List (String × Node)) (c t : String) (fuel : Nat),
        lookupEntry entries c = some (Node.symlink t) → c ≠ "." →
        (isAbsolute t || hasDotDot (pathComponents t)) = true →
        strict_walk (fuel + 1) (Node.dir entries) [c] false =
          Except.error LookupError.traversalBeyondRoot) ∧
    (∀ (fuel : Nat) (cur : Node) (comps : List String) (nf : Bool) (n : Node),
        strict_walk fuel cur comps nf = Except.ok n → InTree n cur) ∧
    (open_relative sys_plain (Base.fd dir_fd_cap) "symlink.samedir" {} =
        Except.ok (cap_result dir_fd_cap topfile) ∧
      open_relative sys_plain (Base.fd dir_fd_cap) "symlink.down" {} =
        Except.ok (cap_result dir_fd_cap bottomfile) ∧
      InTree topfile cap_topdir ∧ InTree bottomfile cap_topdir) ∧
    (open_relative sys_plain (Base.fd dir_fd_cap) "symlink.absolute_in" {} =
        Except.error LookupError.traversalBeyondRoot ∧
      open_relative sys_plain (Base.fd dir_fd_cap) "symlink.absolute_out" {} =
        Except.error LookupError.traversalBeyondRoot ∧
      open_relative sys_plain (Base.fd dir_fd_cap) "symlink.relative_in" {} =
        Except.error LookupError.traversalBeyondRoot ∧
      open_relative sys_plain (Base.fd dir_fd_cap) "symlink.relative_out" {} =
        Except.error LookupError.traversalBeyondRoot ∧
      open_relative sys_plain (Base.fd sub_fd_cap) "symlink.up" {} =
        Except.error LookupError.traversalBeyondRoot) := by
  refine ⟨?_, fun fuel _ _ _ _ h => strict_walk_inTree fuel h,
    ⟨rfl, rfl, ?_, ?_⟩, rfl, rfl, rfl, rfl, rfl⟩
  · intro entries c t fuel hl hc hbad
    simp [strict_walk, walkAux, hc, hl, hbad]
  · exact InTree.child (show ("topfile", topfile) ∈ cap_topdir_entries by
        simp [cap_topdir_entries]) (InTree.refl _)
  · exact InTree.child (show ("subdir", Node.dir subdir_entries) ∈
        cap_topdir_entries by simp [cap_topdir_entries])
      (InTree.child (show ("bottomfile", bottomfile) ∈ subdir_entries by
        simp [subdir_entries]) (InTree.refl _))

/-- C3 witness: a symlink whose absolute target text points back inside the
root is still rejected by the strict walk. -/
theorem claim3_witness :
    strict_walk 4 (Node.dir [("s", Node.symlink "/tmp/cap_topdir/topfile")])
      ["s"] false = Except.error LookupError.traversalBeyondRoot :=
  claim3_symlink_policing.1 [("s", Node.symlink "/tmp/cap_topdir/topfile")]
    "s" "/tmp/cap_topdir/topfile" 3 rfl (by decide) rfl

/-- C4: every descriptor produced by a lookup through a capability base (the
relative-path case — a leading-slash path outside sandbox mode ignores the
base entirely, see C2) is itself a capability whose rights and fcntl/ioctl
sub-enumerations equal the parent's verbatim. -/
theorem claim4_rights_inherited (sys : Sys) (d : Descriptor) (path : String)
    (flags : OpenFlags) (r : OpenResult)
    (hc : d.is_cap = true) (habs : isAbsolute path = false)
    (hok : open_relative sys (Base.fd d) path flags = Except.ok r) :
    r.is_cap = true ∧ r.rights = d.rights ∧ r.fcntls = d.fcntls ∧
      r.ioctls = d.ioctls := by
  by_cases hnc : sys.sandbox = true ∧ d.rights.lookup = false
  · rw [open_relative_fd_notCapable sys d path flags hc hnc.1 hnc.2] at hok
    exact Except.noConfusion hok
  · have h4 : d.is_cap = true → sys.sandbox = true → d.rights.lookup = true := by
      intro _ hs
      cases hl : d.rights.lookup with
      | true => rfl
      | false => exact absurd ⟨hs, hl⟩ hnc
    rw [open_relative_fd_strict sys d path flags (by simp [hc])
        (by simp [habs]) h4] at hok
    simp only [hc, if_true] at hok
    unfold open_strict at hok
    by_cases hsp : (isAbsolute path || hasDotDot (pathComponents path)) = true
    · rw [if_pos hsp] at hok
      exact Except.noConfusion hok
    · rw [if_neg hsp] at hok
      cases hb : nodeAt sys.root d.path with
      | none =>
          rw [hb] at hok
          exact Except.noConfusion hok
      | some b =>
          rw [hb] at hok
          obtain ⟨n, _, hr⟩ := except_map_ok hok
          subst hr
          exact ⟨rfl, rfl, rfl, rfl⟩

/-- C4 witness: the descriptor opened through etc_cap_base carries exactly
its parent's rights, fcntl sub-rights and ioctl sub-rights. -/
theorem claim4_witness :
    get_rights (cap_result etc_cap_base passwdNode) = etc_cap_base.rights ∧
    (cap_result etc_cap_base passwdNode).fcntls = etc_cap_base.fcntls ∧
    (cap_result etc_cap_base passwdNode).ioctls = etc_cap_base.ioctls ∧
    (cap_result etc_cap_base passwdNode).is_cap = true := by
  have h := claim4_rights_inherited sys_plain etc_cap_base "passwd" {}
      (cap_result etc_cap_base passwdNode) rfl rfl rfl
  exact ⟨h.2.1, h.2.2.1, h.2.2.2, h.1⟩

/-- C5 counterexample: the claim says the Lookup-right check applies to every
capability-based lookup inside or outside sandbox mode, but outside sandbox
mode a capability base without the Lookup right still succeeds
(src/openat.cc line 75: "When not in capability mode, we don't actually
require CAP_LOOKUP"). -/
theorem claim5_counterexample :
    etc_cap.is_cap = true ∧ etc_cap.rights.lookup = false ∧
    sys_plain.sandbox = false ∧
    open_relative sys_plain (Base.fd etc_cap) "passwd" {} =
      Except.ok (cap_result etc_cap passwdNode) := ⟨rfl, rfl, rfl, rfl⟩

/-- C5 amended: in sandbox mode, a lookup through a capability base whose
Rights Set lacks Lookup fails with notCapable before any resolution — for
every path, absolute or relative, existing or not. -/
theorem claim5_lookup_check (sys : Sys) (d : Descriptor) (path : String)
    (flags : OpenFlags) (hc : d.is_cap = true) (hs : sys.sandbox = true)
    (hl : d.rights.lookup = false) :
    open_relative sys (Base.fd d) path flags =
      Except.error LookupError.notCapable :=
  open_relative_fd_notCapable sys d path flags hc hs hl

/-- C5 witness: in capability mode, etc_cap (READ only, no LOOKUP) fails
with notCapable. -/
theorem claim5_witness :
    open_relative sys_capmode (Base.fd etc_cap) "passwd" {} =
      Except.error LookupError.notCapable :=
  claim5_lookup_check sys_capmode etc_cap "passwd" {} rfl rfl rfl

/-- C6: after enter_sandbox, every lookup whose base is the ambient
working-directory reference fails with sandboxViolation before any
resolution, for every path and flag combination. -/
theorem claim6_ambient_sandbox (sys : Sys) (path : String) (flags : OpenFlags)
    (hs : sys.sandbox = true) :
    open_relative sys Base.at_fdcwd path flags =
      Except.error LookupError.sandboxViolation := by
  simp [open_relative, hs]

/-- C6 witness: both a relative and an absolute AT_FDCWD lookup fail with
sandboxViolation in capability mode. -/
theorem claim6_witness :
    open_relative sys_capmode Base.at_fdcwd "topfile" {} =
      Except.error LookupError.sandboxViolation ∧
    open_relative sys_capmode Base.at_fdcwd "/etc/passwd" {} =
      Except.error LookupError.sandboxViolation :=
  ⟨claim6_ambient_sandbox sys_capmode "topfile" {} rfl,
   claim6_ambient_sandbox sys_capmode "/etc/passwd" {} rfl⟩

/-- C7: when no-follow is requested and the final component of a
strict-relative lookup resolves to a symlink, open_relative fails with
symlinkLoop whatever the symlink's target text — including targets that stay
entirely within the root. -/
theorem claim7_nofollow_symlink (sys : Sys) (d : Descriptor) (path : String)
    (flags : OpenFlags) (c t : String) (entries : List (String × Node))
    (h3 : (d.is_cap || sys.sandbox || flags.beneath) = true)
    (h4 : d.is_cap = true → sys.sandbox = true → d.rights.lookup = true)
    (habs : isAbsolute path = false)
    (hcomp : pathComponents path = [c])
    (hcdd : c ≠ "..") (hcdot : c ≠ ".")
    (hb : nodeAt sys.root d.path = some (Node.dir entries))
    (he : lookupEntry entries c = some (Node.symlink t))
    (hnf : flags.nofollow = true) :
    open_relative sys (Base.fd d) path flags =
      Except.error LookupError.symlinkLoop := by
  rw [open_relative_fd_strict sys d path flags h3 (by simp [habs]) h4]
  have hdd : hasDotDot (pathComponents path) = false := by
    rw [hcomp]
    simp [hasDotDot, hcdd]
  rw [open_strict_resolve sys d.path path flags _ _ habs hdd hb, hcomp, hnf,
    strict_walk_final_symlink maxSymlinkDepth entries c t hcdot he]
  rfl

/-- C7 witness: symlink.samedir, whose target stays in the root, is refused
with symlinkLoop under no-follow in capability mode. -/
theorem claim7_witness :
    open_relative sys_capmode (Base.fd dir_fd) "symlink.samedir"
      { nofollow := true } = Except.error LookupError.symlinkLoop :=
  claim7_nofollow_symlink sys_capmode dir_fd "symlink.samedir"
    { nofollow := true } "symlink.samedir" "topfile" cap_topdir_entries
    rfl (fun _ _ => rfl) rfl rfl (by decide) (by decide) rfl rfl rfl

/-- C8: for relative paths (a leading-slash path through a capability base
outside sandbox mode is not routed to the resolver at all, see C2), the
resolver outcome at a given base directory is identical under all three
routing triggers — capability base, sandbox mode, and the O_BENEATH flag —
up to the capability wrapping of the success metadata: the same policing
function decides all three routes. -/
theorem claim8_same_policing (root : Node) (cwd bpath : List String)
    (path : String) (nofollow : Bool) (dc dp : Descriptor)
    (hc1 : dc.path = bpath) (hc2 : dc.is_cap = true)
    (hp1 : dp.path = bpath) (hp2 : dp.is_cap = false)
    (habs : isAbsolute path = false) :
    (open_relative { root := root, sandbox := false, cwd := cwd } (Base.fd dc)
        path { nofollow := nofollow, beneath := false }).map (fun r => r.node) =
      (open_relative { root := root, sandbox := true, cwd := cwd } (Base.fd dp)
        path { nofollow := nofollow, beneath := false }).map (fun r => r.node) ∧
    (open_relative { root := root, sandbox := false, cwd := cwd } (Base.fd dp)
        path { nofollow := nofollow, beneath := true }).map (fun r => r.node) =
      (open_relative { root := root, sandbox := true, cwd := cwd } (Base.fd dp)
        path { nofollow := nofollow, beneath := false }).map (fun r => r.node) := by
  have hcap : ∀ n : Node, (cap_result dc n).node = n := fun _ => rfl
  have hpl : ∀ n : Node, (plain_result n).node = n := fun _ => rfl
  have hB : open_relative { root := root, sandbox := true, cwd := cwd }
      (Base.fd dp) path { nofollow := nofollow, beneath := false } =
      open_strict { root := root, sandbox := true, cwd := cwd } dp.path path
        { nofollow := nofollow, beneath := false } plain_result := by
    rw [open_relative_fd_strict _ dp path _ (by simp) (by simp [habs])
        (fun h _ => absurd h (by simp [hp2]))]
    simp [hp2]
  constructor
  · rw [open_relative_fd_strict _ dc path _ (by simp [hc2]) (by simp [habs])
        (fun _ hs => absurd hs (by simp)), hB]
    simp only [hc2, if_true]
    rw [open_strict_map_node _ _ _ _ _ hcap, open_strict_map_node _ _ _ _ _ hpl,
      hc1, hp1]
  · rw [open_relative_fd_strict _ dp path _ (by simp) (by simp [habs])
        (fun h _ => absurd h (by simp [hp2])), hB]
    simp only [hp2, Bool.false_eq_true, if_false]
    rw [open_strict_map_node _ _ _ _ _ hpl, open_strict_map_node _ _ _ _ _ hpl,
      hp1]

/-- C8 witness: the capability route, the sandbox route and the O_BENEATH
route each reject symlink.relative_in at the same base with the same
outcome. -/
theorem claim8_witness :
    (open_relative { root := fsRoot, sandbox := false, cwd := ["tmp", "cap_topdir"] }
        (Base.fd dir_fd_cap) "symlink.relative_in"
        { nofollow := false, beneath := false }).map (fun r => r.node) =
      (open_relative { root := fsRoot, sandbox := true, cwd := ["tmp", "cap_topdir"] }
        (Base.fd dir_fd) "symlink.relative_in"
        { nofollow := false, beneath := false }).map (fun r => r.node) ∧
    (open_relative { root := fsRoot, sandbox := false, cwd := ["tmp", "cap_topdir"] }
        (Base.fd dir_fd) "symlink.relative_in"
        { nofollow := false, beneath := true }).map (fun r => r.node) =
      (open_relative { root := fsRoot, sandbox := true, cwd := ["tmp", "cap_topdir"] }
        (Base.fd dir_fd) "symlink.relative_in"
        { nofollow := false, beneath := false }).map (fun r => r.node) :=
  claim8_same_policing fsRoot ["tmp", "cap_topdir"] ["tmp", "cap_topdir"]
    "symlink.relative_in" false dir_fd_cap dir_fd rfl rfl rfl rfl rfl

/-- C9: a strict-relative lookup of "." with the containment root itself as
base succeeds and returns the root, under every routing trigger. -/
theorem claim9_dot_root (sys : Sys) (d : Descriptor) (flags : OpenFlags)
    (b : Node)
    (h3 : (d.is_cap || sys.sandbox || flags.beneath) = true)
    (h4 : d.is_cap = true → sys.sandbox = true → d.rights.lookup = true)
    (hb : nodeAt sys.root d.path = some b) :
    (open_relative sys (Base.fd d) "." flags).map (fun r => r.node) =
      Except.ok b := by
  rw [open_relative_fd_strict sys d "." flags h3
      (by simp [show isAbsolute "." = false from rfl]) h4]
  rw [open_strict_resolve sys d.path "." flags _ b rfl rfl hb,
    show pathComponents "." = ["."] from rfl,
    strict_walk_dot maxSymlinkDepth b flags.nofollow]
  cases hdc : d.is_cap <;> simp [Except.map, cap_result, plain_result]

/-- C9 witness: "." on sub_fd in capability mode returns the subdirectory
itself. -/
theorem claim9_witness :
    (open_relative sys_capmode (Base.fd sub_fd) "." {}).map (fun r => r.node) =
      Except.ok (Node.dir subdir_entries) :=
  claim9_dot_root sys_capmode sub_fd {} (Node.dir subdir_entries)
    rfl (fun _ _ => rfl) rfl

/-- C10: rights limiting is strictly per-descriptor — limiting the rights of
a descriptor duplicated from an original leaves the original's table entry
untouched, and after sandbox mode is entered the original non-capability
descriptor's relative lookups still go straight to the resolver with no
Lookup-right check. -/
theorem claim10_limit_frame (t : FdTable) (fd newFd : Nat) (r : CapRights)
    (t2 : FdTable) (d : Descriptor) (sys : Sys) (path : String)
    (flags : OpenFlags)
    (hne : fd ≠ newFd) (hd : lookupFd t fd = some d)
    (hlim : fd_rights_limit (dupFd t fd newFd) newFd r = Except.ok t2)
    (hnc : d.is_cap = false) (hs : sys.sandbox = true) :
    lookupFd t2 fd = some d ∧
    open_relative sys (Base.fd d) path flags =
      open_strict sys d.path path flags plain_result := by
  constructor
  · rw [fd_rights_limit_frame _ _ _ _ _ hlim hne,
      lookupFd_dupFd_ne t fd newFd (Ne.symm hne), hd]
  · rw [open_relative_fd_strict sys d path flags (by simp [hs])
        (by simp [hs]) (fun h _ => absurd h (by simp [hnc]))]
    simp [hnc]

/-- C10 witness: duplicating the /etc fd and limiting the duplicate to READ
only leaves the original unrestricted entry in place, and in capability mode
the original still opens "passwd" with no Lookup-right check. -/
theorem claim10_witness :
    lookupFd ([(4, etc_cap), (3, etc_fd)] : FdTable) 3 = some etc_fd ∧
    open_relative sys_capmode (Base.fd etc_fd) "passwd" {} =
      open_strict sys_capmode ["etc"] "passwd" {} plain_result ∧
    open_strict sys_capmode ["etc"] "passwd" {} plain_result =
      Except.ok (plain_result passwdNode) := by
  have h := claim10_limit_frame ([(3, etc_fd)] : FdTable) 3 4 r_ro
      ([(4, etc_cap), (3, etc_fd)] : FdTable) etc_fd sys_capmode "passwd" {}
      (by decide) rfl rfl rfl rfl
  exact ⟨h.1, h.2, rfl⟩

end Capsicum
